import Mathlib

/-!
Verification development for the Sprint Analyzer application.

The repository ships one visible source file, `streamlit_app.py`, whose
function `process_sprint_file` drives a pipeline of three collaborating
modules (`automation.data_processor`, `automation.calculator`,
`automation.excel_updater`).  The pipeline structure, call order, argument
shapes and the error/early-return branches are translated directly from
`streamlit_app.py`; the bodies of the three collaborator modules are not in
the repository snapshot, so they are modelled from the specification, each
such definition carrying a doc comment that starts with
`Modelled from the spec:`.

Numeric cell values are rationals; worksheets are lists of rows of cells;
fallible stages return `Except`.
-/

namespace SprintAnalyzer

/-- A spreadsheet cell: a string, a number, or blank. -/
inductive Cell where
  | str (s : String)
  | num (q : Rat)
  | blank
deriving DecidableEq

/-- Pipeline error taxonomy from the spec (section 7): extractor errors,
validator-classified errors surface through ValidationResult instead, and
the updater raises `workbookStructureError` when a target sheet is absent. -/
inductive PErr where
  | metadataError
  | schemaError
  | workbookStructureError
deriving DecidableEq

/-- One row of the Azure DevOps export after header mapping
(spec section 3, WorkItem). Missing cells become `none`. -/
structure WorkItem where
  id : Option Rat
  assignee : Option String
  team : Option String
  itemType : Option String
  status : Option String
  effort : Option Rat
  isAddition : Bool
  isAdhoc : Bool
deriving DecidableEq

/-- Sprint metadata read from fixed labelled cells in rows 3 to 10 of the
Data sheet (spec section 4.1). `total_capacity` feeds the sprint-level CMMI
denominators, since `calculate_cmmi_measures` is called with the metadata
and the work items only. -/
structure SprintMetadata where
  sprint_name : String
  sprint_number : Rat
  estimated_effort : Rat
  total_capacity : Rat
deriving DecidableEq

/-- A structured validation issue: machine-classifiable kind plus message. -/
structure Issue where
  kind : String
  message : String
deriving DecidableEq

/-- Validation status: ok, warning or error (spec section 3). -/
inductive VStatus where
  | ok
  | warning
  | error
deriving DecidableEq

/-- Result of the validation pass, mirroring the dict consulted at
`streamlit_app.py` lines 137, 245 and 253: a status plus error and warning
issue lists. -/
structure ValidationResult where
  status : VStatus
  errors : List Issue
  warnings : List Issue
deriving DecidableEq

/-- Read a cell of a sheet at row `r`, column `c` (0-based), blank when out
of range. -/
def get_meta_cell (sheet : List (List Cell)) (r c : Nat) : Cell :=
  (sheet.getD r []).getD c Cell.blank

/-- A nonempty string cell, otherwise `none`. -/
def cellStr? : Cell → Option String
  | Cell.str s => if s = "" then none else some s
  | _ => none

/-- A numeric cell, otherwise `none`. -/
def cellNum? : Cell → Option Rat
  | Cell.num q => some q
  | _ => none

/-- Modelled from the spec: `SprintDataProcessor.extract_sprint_metadata`
(module `automation.data_processor`, absent from the snapshot) reads a fixed
set of labelled cells in rows 3 to 10 of the Data sheet into SprintMetadata
and fails with `MetadataError` if a required cell is blank or not parseable
as its expected type (spec section 4.1). -/
def extract_sprint_metadata (sheet : List (List Cell)) : Except PErr SprintMetadata :=
  match cellStr? (get_meta_cell sheet 2 1), cellNum? (get_meta_cell sheet 4 1),
        cellNum? (get_meta_cell sheet 6 1), cellNum? (get_meta_cell sheet 8 1) with
  | some name, some n, some est, some cap =>
      Except.ok { sprint_name := name, sprint_number := n,
                  estimated_effort := est, total_capacity := cap }
  | _, _, _, _ => Except.error PErr.metadataError

/-- The 0-based header row index of the work-item table, from
`streamlit_app.py` line 132: `pd.read_excel(..., header=20)`.  Row 20 in
0-based indexing is row 21 in the 1-based worksheet numbering. -/
def azureHeaderIndex : Nat := 20

/-- Modelled from the spec: the column headers the extractor expects in the
header row, one per WorkItem field (spec sections 3 and 4.1; the literal
header strings are not in the snapshot). -/
def expectedColumns : List String :=
  ["ID", "Assigned To", "Team", "Work Item Type", "State", "Effort",
   "Addition", "Category"]

/-- The cell of `row` under the column named `name` in `header`. -/
def cellAt (header row : List Cell) (name : String) : Cell :=
  match header.findIdx? (fun c => c == Cell.str name) with
  | some i => row.getD i Cell.blank
  | none => Cell.blank

/-- Modelled from the spec: map one data row to a WorkItem using the header
row to locate each column (spec section 4.1). -/
def parse_work_item (header row : List Cell) : WorkItem :=
  { id := cellNum? (cellAt header row "ID")
    assignee := cellStr? (cellAt header row "Assigned To")
    team := cellStr? (cellAt header row "Team")
    itemType := cellStr? (cellAt header row "Work Item Type")
    status := cellStr? (cellAt header row "State")
    effort := cellNum? (cellAt header row "Effort")
    isAddition := cellAt header row "Addition" == Cell.str "Yes"
    isAdhoc := cellAt header row "Category" == Cell.str "Ad-hoc" }

/-- True when every cell of the row is blank. -/
def blankRow (row : List Cell) : Bool :=
  row.all (fun c => c == Cell.blank)

/-- Modelled from the spec: `SprintDataProcessor.process_azure_data`
(module `automation.data_processor`, absent from the snapshot) parses the
tabular region whose header row the caller read at 0-based index 20
(`streamlit_app.py` line 132, so 1-based row 21), maps column names to
WorkItem fields, drops fully blank rows, and fails with `SchemaError` when
an expected column header is missing (spec section 4.1). -/
def process_azure_data (sheet : List (List Cell)) : Except PErr (List WorkItem) :=
  match sheet[azureHeaderIndex]? with
  | none => Except.error PErr.schemaError
  | some header =>
      if expectedColumns.all (fun n => header.contains (Cell.str n)) then
        Except.ok
          (((sheet.drop (azureHeaderIndex + 1)).filter
              (fun r => !(blankRow r))).map (parse_work_item header))
      else Except.error PErr.schemaError

/-- A row is usable for staff rollups when it has an assignee and an effort
value (spec section 4.2). -/
def usableRow (w : WorkItem) : Bool :=
  w.assignee.isSome && w.effort.isSome

/-- The issue recorded for an empty work-item table. -/
def emptyTableIssue : Issue :=
  { kind := "empty_table", message := "work item table has zero data rows" }

/-- The issue recorded for a duplicate work-item id. -/
def duplicateIdIssue : Issue :=
  { kind := "duplicate_id", message := "duplicate work item id" }

/-- The issue recorded when warnings excluded every row. -/
def noUsableRowsIssue : Issue :=
  { kind := "no_usable_rows", message := "no rows remain after exclusions" }

/-- The warning recorded for a row missing assignee or effort. -/
def missingDataIssue : Issue :=
  { kind := "missing_data", message := "row missing assignee or effort" }

/-- Modelled from the spec: `SprintDataProcessor.validate_data` (module
`automation.data_processor`, absent from the snapshot).  Its argument shape
is taken from the call site `streamlit_app.py` line 136: it receives the
processed rows only (capacity data is read after validation, line 141).
Checks, from spec section 4.2: empty table is an error, duplicate work-item
id is an error, a row missing assignee or effort is a warning unless no
usable rows remain at all, which is an error.  Status is error when any
error issue exists, else warning when any warning exists, else ok. -/
def validate_data (items : List WorkItem) : ValidationResult :=
  let ids := items.filterMap (fun w => w.id)
  let errs :=
    (if items = [] then [emptyTableIssue] else [])
      ++ (if ids.dedup.length = ids.length then [] else [duplicateIdIssue])
      ++ (if items ≠ [] ∧ items.filter usableRow = [] then [noUsableRowsIssue] else [])
  let warns := items.filterMap
    (fun w => if usableRow w then none else some missingDataIssue)
  { status :=
      if errs ≠ [] then VStatus.error
      else if warns ≠ [] then VStatus.warning
      else VStatus.ok
    errors := errs
    warnings := warns }

/-- Case-normalization of staff and team names used as grouping keys
(spec section 4.3: grouping key is the case-normalized name). -/
def normName (s : String) : String :=
  String.mk (s.data.map Char.toLower)

/-- Byte-wise lexicographic comparison of character lists. -/
def charsLe : List Char → List Char → Bool
  | [], _ => true
  | _ :: _, [] => false
  | c :: cs, d :: ds => if c = d then charsLe cs ds else decide (c.toNat ≤ d.toNat)

/-- Lexicographic order on strings, used for the stable sort by name that
spec section 4.3 requires of the aggregator output. -/
def strLeB (a b : String) : Bool :=
  charsLe a.data b.data

/-- Insert into a list sorted by `le`. -/
def insertSorted (le : String → String → Bool) (a : String) : List String → List String
  | [] => [a]
  | b :: l => if le a b then a :: b :: l else b :: insertSorted le a l

/-- Insertion sort by `le`. -/
def sortNames (le : String → String → Bool) : List String → List String
  | [] => []
  | a :: l => insertSorted le a (sortNames le l)

/-- Per-group rollup (spec section 3, StaffAggregate / TeamAggregate):
counts and sums needed by the calculator. -/
structure Aggregate where
  name : String
  totalCount : Nat
  doneCount : Nat
  additionCount : Nat
  adhocCount : Nat
  totalEffort : Rat
  doneEffort : Rat
deriving DecidableEq

/-- Modelled from the spec: the fixed set of done statuses (spec section
4.3; the literal set is not in the snapshot, noted open in section 9). -/
def doneStatuses : List String := ["Done", "Closed"]

/-- Whether a work item counts as done. -/
def isDone (w : WorkItem) : Bool :=
  match w.status with
  | some s => doneStatuses.contains s
  | none => false

/-- Effort of a work item, zero when the effort cell was missing. -/
def effortOf (w : WorkItem) : Rat :=
  w.effort.getD 0

/-- Rows that participate in staff rollups: assignee and effort present
(spec section 4.2: rows missing either are excluded from staff rollups). -/
def staffRows (items : List WorkItem) : List WorkItem :=
  items.filter usableRow

/-- Rows that participate in team rollups: team present (spec sections 4.2
and 4.3: rows with a known team are retained in team rollups, tasks with no
team are excluded). -/
def teamRows (items : List WorkItem) : List WorkItem :=
  items.filter (fun w => w.team.isSome)

/-- Case-normalized staff grouping key of a row. -/
def staffKey (w : WorkItem) : Option String :=
  w.assignee.map normName

/-- Case-normalized team grouping key of a row. -/
def teamKey (w : WorkItem) : Option String :=
  w.team.map normName

/-- The rollup of one group of rows. -/
def mkAggregate (name : String) (group : List WorkItem) : Aggregate :=
  { name := name
    totalCount := group.length
    doneCount := (group.filter isDone).length
    additionCount := (group.filter (fun w => w.isAddition)).length
    adhocCount := (group.filter (fun w => w.isAdhoc)).length
    totalEffort := (group.map effortOf).sum
    doneEffort := ((group.filter isDone).map effortOf).sum }

/-- The distinct grouping keys of a row list in stable sorted order. -/
def groupKeys (key : WorkItem → Option String) (rows : List WorkItem) : List String :=
  sortNames strLeB (rows.filterMap key).dedup

/-- Modelled from the spec: `SprintDataProcessor.aggregate_by_staff`
(module `automation.data_processor`, absent from the snapshot) groups
usable rows by case-normalized assignee and computes the per-group rollup,
output sorted by name (spec section 4.3). -/
def aggregate_by_staff (items : List WorkItem) : List Aggregate :=
  (groupKeys staffKey (staffRows items)).map
    (fun s => mkAggregate s ((staffRows items).filter (fun w => staffKey w == some s)))

/-- Modelled from the spec: `SprintDataProcessor.aggregate_by_team`
(module `automation.data_processor`, absent from the snapshot) groups rows
with a known team by case-normalized team name and computes the per-group
rollup, output sorted by name (spec section 4.3). -/
def aggregate_by_team (items : List WorkItem) : List Aggregate :=
  (groupKeys teamKey (teamRows items)).map
    (fun t => mkAggregate t ((teamRows items).filter (fun w => teamKey w == some t)))

/-- Modelled from the spec: `SprintDataProcessor.get_capacity_data` (module
`automation.data_processor`, absent from the snapshot) reads the Capacity
sheet into the staff name to capacity mapping (spec sections 3 and 6). -/
def get_capacity_data (capacitySheet : List (String × Rat)) : List (String × Rat) :=
  capacitySheet

/-- Capacity of a case-normalized staff name, `none` when the staff member
has no capacity record. -/
def capacityOf (capacity : List (String × Rat)) (name : String) : Option Rat :=
  (capacity.find? (fun p => normName p.1 == name)).map (fun p => p.2)

/-- One staff or team KPI record (spec section 3, StaffMetrics /
TeamMetrics): the six metric values, each ratio paired with its
zero-denominator flag (spec section 4.4 edge-case policy). -/
structure Metrics where
  name : String
  done_pct : Rat
  done_pct_flag : Bool
  mid_pct : Rat
  mid_pct_flag : Bool
  adhoc_pct : Rat
  adhoc_pct_flag : Bool
  utilization : Rat
  utilization_flag : Bool
  performance_rate : Rat
  performance_rate_flag : Bool
  kpi : Rat
deriving DecidableEq

/-- The five sprint-level CMMI measures plus sprint name (spec section 3),
each ratio paired with its zero-denominator flag. -/
structure CmmiMeasures where
  sprint_name : String
  completion_rate : Rat
  completion_flag : Bool
  estimation_accuracy : Rat
  estimation_flag : Bool
  bug_effort_pct : Rat
  bug_flag : Bool
  utilization_rate : Rat
  utilization_rate_flag : Bool
  productivity : Rat
  productivity_flag : Bool
deriving DecidableEq

/-- Division with the spec section 4.4 edge-case policy: a zero denominator
yields value 0 together with a raised flag, otherwise the exact quotient
with a clear flag. -/
def safe_div (n d : Rat) : Rat × Bool :=
  if d = 0 then (0, true) else (n / d, false)

/-- The configurable utilization ceiling (spec section 4.4, e.g. 1.5). -/
def utilization_ceiling : Rat := 3 / 2

/-- The KPI weight configuration table (spec section 4.4: weights are a
configuration table, not hardcoded per call). -/
structure KpiWeights where
  w_done : Rat
  w_util : Rat
  w_perf : Rat
  w_mid : Rat
deriving DecidableEq

/-- Modelled from the spec: the default KPI weight table (spec section 9
notes the literal weights are not fixed by the source). -/
def default_weights : KpiWeights :=
  { w_done := 1 / 4, w_util := 1 / 4, w_perf := 1 / 4, w_mid := 1 / 4 }

/-- Modelled from the spec: the six KPI values of one aggregate given the
capacity data (spec section 4.4).  A group absent from the capacity data
uses the zero sentinel capacity, so its capacity-based ratios are 0 and
flagged.  Utilization is capped at the configurable ceiling. -/
def metrics_of (capacity : List (String × Rat)) (a : Aggregate) : Metrics :=
  let dp := safe_div (a.doneCount : Rat) (a.totalCount : Rat)
  let mp := safe_div (a.additionCount : Rat) (a.totalCount : Rat)
  let ap := safe_div (a.adhocCount : Rat) (a.totalCount : Rat)
  let c := (capacityOf capacity a.name).getD 0
  let ut := safe_div a.totalEffort c
  let pr := safe_div a.doneEffort c
  let w := default_weights
  { name := a.name
    done_pct := dp.1
    done_pct_flag := dp.2
    mid_pct := mp.1
    mid_pct_flag := mp.2
    adhoc_pct := ap.1
    adhoc_pct_flag := ap.2
    utilization := min ut.1 utilization_ceiling
    utilization_flag := ut.2
    performance_rate := pr.1
    performance_rate_flag := pr.2
    kpi := w.w_done * dp.1 + w.w_util * min ut.1 utilization_ceiling
             + w.w_perf * pr.1 + w.w_mid * mp.1 }

/-- Modelled from the spec: `SprintCalculator.calculate_staff_metrics`
(module `automation.calculator`, absent from the snapshot) computes the six
staff KPIs for every staff aggregate; argument shape from the call at
`streamlit_app.py` lines 147 to 149. -/
def calculate_staff_metrics (staff_agg : List Aggregate)
    (capacity_data : List (String × Rat)) (_azure_data : List WorkItem) : List Metrics :=
  staff_agg.map (metrics_of capacity_data)

/-- Modelled from the spec: `SprintCalculator.calculate_team_metrics`
(module `automation.calculator`, absent from the snapshot) applies the same
formula shape at team granularity (spec section 4.4); argument shape from
the call at `streamlit_app.py` lines 151 to 153. -/
def calculate_team_metrics (team_agg : List Aggregate)
    (capacity_data : List (String × Rat)) (_azure_data : List WorkItem) : List Metrics :=
  team_agg.map (metrics_of capacity_data)

/-- Clamp a rational to the interval from 0 to 1. -/
def clamp01 (q : Rat) : Rat :=
  max 0 (min 1 q)

/-- Modelled from the spec: `SprintCalculator.calculate_cmmi_measures`
(module `automation.calculator`, absent from the snapshot) computes the
five sprint-level measures of spec section 4.4 from the sprint metadata and
the work items (argument shape from `streamlit_app.py` lines 155 to 157;
the capacity total therefore comes from the metadata). -/
def calculate_cmmi_measures (meta : SprintMetadata) (items : List WorkItem) : CmmiMeasures :=
  let total := (items.length : Rat)
  let done := ((items.filter isDone).length : Rat)
  let actual := (items.map effortOf).sum
  let doneEffort := ((items.filter isDone).map effortOf).sum
  let bugEffort := ((items.filter (fun w => w.itemType == some "Bug")).map effortOf).sum
  let comp := safe_div done total
  let est :=
    if meta.estimated_effort = 0 then ((0 : Rat), true)
    else (clamp01 (1 - |meta.estimated_effort - actual| / meta.estimated_effort), false)
  let bug := safe_div bugEffort actual
  let ur := safe_div actual meta.total_capacity
  let prod := safe_div doneEffort meta.total_capacity
  { sprint_name := meta.sprint_name
    completion_rate := comp.1
    completion_flag := comp.2
    estimation_accuracy := est.1
    estimation_flag := est.2
    bug_effort_pct := bug.1
    bug_flag := bug.2
    utilization_rate := ur.1
    utilization_rate_flag := ur.2
    productivity := prod.1
    productivity_flag := prod.2 }

/-- The workbook as the pipeline sees it: the Data sheet, the Capacity
sheet, and the five updatable output surfaces of spec section 4.5.  The
three historical sheets and the Kpi Indicators sheet are optional because
the updater raises `WorkbookStructureError` when a target sheet is missing;
`otherSheets` stands for every sheet the updater must leave untouched. -/
structure Workbook where
  dataSheet : List (List Cell)
  capacitySheet : List (String × Rat)
  analysisSheets : List (String × (List Metrics × List Metrics))
  kpiIndicators : Option String
  histStaff : Option (List (String × List Rat))
  histTeam : Option (List (String × List Rat))
  cmmiRows : Option (List (String × List Rat))
  otherSheets : List (String × Nat)
deriving DecidableEq

/-- Replace the value of key `k` in place when present, else append the
new keyed entry (spec section 4.5 append/overwrite-by-key rule). -/
def upsertKey {α : Type} (rows : List (String × α)) (k : String) (v : α) :
    List (String × α) :=
  if rows.any (fun r => r.1 == k) then
    rows.map (fun r => if r.1 == k then (k, v) else r)
  else rows ++ [(k, v)]

/-- How many entries of a keyed list carry key `k`. -/
def countKey {α : Type} (rows : List (String × α)) (k : String) : Nat :=
  (rows.filter (fun r => r.1 == k)).length

/-- Modelled from the spec: `ExcelUpdater.update_analysis_sheet` (module
`automation.excel_updater`, absent from the snapshot) replaces or creates
the per-sprint analysis sheet holding the staff and team metric tables
(spec section 4.5 item 1). -/
def update_analysis_sheet (wb : Workbook) (sprint_name : String)
    (staff_metrics team_metrics : List Metrics) : Workbook :=
  { wb with
    analysisSheets := upsertKey wb.analysisSheets (sprint_name ++ " Analysis")
                        (staff_metrics, team_metrics) }

/-- Modelled from the spec: `ExcelUpdater.update_kpi_indicators_sheet`
(module `automation.excel_updater`, absent from the snapshot) rewrites the
Kpi Indicators sheet as formulas referencing the per-sprint analysis sheet
(spec section 4.5 item 2), modelled as storing the referenced sheet name;
a missing target sheet is a `WorkbookStructureError`. -/
def update_kpi_indicators_sheet (wb : Workbook)
    (_staff_metrics _team_metrics : List Metrics) (sprint_name : String) :
    Except PErr Workbook :=
  match wb.kpiIndicators with
  | none => Except.error PErr.workbookStructureError
  | some _ => Except.ok { wb with kpiIndicators := some (sprint_name ++ " Analysis") }

/-- The historical column written for a sprint: the KPI value per record. -/
def historyColumn (ms : List Metrics) : List Rat :=
  ms.map (fun m => m.kpi)

/-- Modelled from the spec: `ExcelUpdater.append_to_historical_staff`
(module `automation.excel_updater`, absent from the snapshot) appends one
column keyed by sprint name to the Kpi Indicators Per Staff sheet,
overwriting in place when the key already exists (spec section 4.5 item 3);
a missing target sheet is a `WorkbookStructureError`. -/
def append_to_historical_staff (wb : Workbook) (staff_metrics : List Metrics)
    (sprint_name : String) : Except PErr Workbook :=
  match wb.histStaff with
  | none => Except.error PErr.workbookStructureError
  | some cols =>
      Except.ok { wb with
        histStaff := some (upsertKey cols sprint_name (historyColumn staff_metrics)) }

/-- Modelled from the spec: `ExcelUpdater.append_to_historical_team`
(module `automation.excel_updater`, absent from the snapshot), the same
append/overwrite-by-key rule for the Kpi Indicators Per Team sheet (spec
section 4.5 item 4). -/
def append_to_historical_team (wb : Workbook) (team_metrics : List Metrics)
    (sprint_name : String) : Except PErr Workbook :=
  match wb.histTeam with
  | none => Except.error PErr.workbookStructureError
  | some cols =>
      Except.ok { wb with
        histTeam := some (upsertKey cols sprint_name (historyColumn team_metrics)) }

/-- The CMMI history row written for a sprint: the five measure values. -/
def cmmiRow (cm : CmmiMeasures) : List Rat :=
  [cm.completion_rate, cm.estimation_accuracy, cm.bug_effort_pct,
   cm.utilization_rate, cm.productivity]

/-- Modelled from the spec: `ExcelUpdater.update_cmmi_template` (module
`automation.excel_updater`, absent from the snapshot) appends one row keyed
by sprint name to the CMMI Template sheet, overwriting in place when the
key already exists (spec section 4.5 item 5); a missing target sheet is a
`WorkbookStructureError`. -/
def update_cmmi_template (wb : Workbook) (cmmi_measures : CmmiMeasures)
    (sprint_name : String) : Except PErr Workbook :=
  match wb.cmmiRows with
  | none => Except.error PErr.workbookStructureError
  | some rows =>
      Except.ok { wb with
        cmmiRows := some (upsertKey rows sprint_name (cmmiRow cmmi_measures)) }

/-- The five sheet updates of `streamlit_app.py` lines 163 to 167 in call
order, each either applied in memory or raising; nothing is persisted here
(the save of line 170 happens in `process_sprint_file`). -/
def run_updater (wb : Workbook) (sprint_name : String)
    (staff_metrics team_metrics : List Metrics) (cmmi_measures : CmmiMeasures) :
    Except PErr Workbook :=
  let wbA := update_analysis_sheet wb sprint_name staff_metrics team_metrics
  match update_kpi_indicators_sheet wbA staff_metrics team_metrics sprint_name with
  | Except.error e => Except.error e
  | Except.ok wbK =>
    match append_to_historical_staff wbK staff_metrics sprint_name with
    | Except.error e => Except.error e
    | Except.ok wbS =>
      match append_to_historical_team wbS team_metrics sprint_name with
      | Except.error e => Except.error e
      | Except.ok wbT =>
        match update_cmmi_template wbT cmmi_measures sprint_name with
        | Except.error e => Except.error e
        | Except.ok wbC => Except.ok wbC

/-- Everything `process_sprint_file` computes past the validation gate:
the updated workbook and the four result values of the success return at
`streamlit_app.py` line 176. -/
structure SuccessData where
  updated : Workbook
  validation : ValidationResult
  staff_metrics : List Metrics
  team_metrics : List Metrics
  cmmi_measures : CmmiMeasures
deriving DecidableEq

/-- The body of `process_sprint_file` (`streamlit_app.py` lines 115 to
176) before the enclosing `except` clause: each stage in source order, an
exception at any stage short-circuiting as `Except.error`, and the
validation gate of lines 137 to 138 returning early with the error list. -/
def pipeline (wb : Workbook) : Except PErr (Sum (List Issue) SuccessData) :=
  match extract_sprint_metadata wb.dataSheet with
  | Except.error e => Except.error e
  | Except.ok sprint_metadata =>
    match process_azure_data wb.dataSheet with
    | Except.error e => Except.error e
    | Except.ok azure_data =>
      let validation := validate_data azure_data
      if validation.status = VStatus.error then
        Except.ok (Sum.inl validation.errors)
      else
        let capacity_data := get_capacity_data wb.capacitySheet
        let staff_agg := aggregate_by_staff azure_data
        let team_agg := aggregate_by_team azure_data
        let staff_metrics := calculate_staff_metrics staff_agg capacity_data azure_data
        let team_metrics := calculate_team_metrics team_agg capacity_data azure_data
        let cmmi_measures := calculate_cmmi_measures sprint_metadata azure_data
        match run_updater wb sprint_metadata.sprint_name staff_metrics team_metrics
                cmmi_measures with
        | Except.error e => Except.error e
        | Except.ok updated =>
            Except.ok (Sum.inr
              { updated := updated, validation := validation,
                staff_metrics := staff_metrics, team_metrics := team_metrics,
                cmmi_measures := cmmi_measures })

/-- The value `process_sprint_file` returns to `main`: the five-component
success tuple of line 176, the four-component validation-error tuple
`(None, validation.errors, None, None)` of line 138, or the five `None`
values of line 180. -/
inductive ProcessResult where
  | success (d : SuccessData)
  | validationFailure (errors : List Issue)
  | exceptionFailure
deriving DecidableEq

/-- How many components the returned tuple has as written in the source:
five at lines 176 and 180, four at line 138. -/
def returnArity : ProcessResult → Nat
  | ProcessResult.success _ => 5
  | ProcessResult.validationFailure _ => 4
  | ProcessResult.exceptionFailure => 5

/-- Whether `main` line 241, which unpacks the result into five names, can
consume the returned tuple. -/
def mainUnpackOk (r : ProcessResult) : Bool :=
  returnArity r == 5

/-- The first returned component (the processed workbook bytes). -/
def result_bytes : ProcessResult → Option Workbook
  | ProcessResult.success d => some d.updated
  | _ => none

/-- The second returned component on the success branch (the validation
record; on the validation-error branch the source puts the bare error list
there instead, so this projection is `none` for it). -/
def result_validation : ProcessResult → Option ValidationResult
  | ProcessResult.success d => some d.validation
  | _ => none

/-- The third returned component (staff metrics). -/
def result_staff : ProcessResult → Option (List Metrics)
  | ProcessResult.success d => some d.staff_metrics
  | _ => none

/-- The fourth returned component (team metrics). -/
def result_team : ProcessResult → Option (List Metrics)
  | ProcessResult.success d => some d.team_metrics
  | _ => none

/-- The fifth returned component (CMMI measures). -/
def result_cmmi : ProcessResult → Option CmmiMeasures
  | ProcessResult.success d => some d.cmmi_measures
  | _ => none

/-- `process_sprint_file` (`streamlit_app.py` lines 113 to 180): runs the
pipeline on the uploaded workbook and pairs the returned value with the
final state of the temp workbook file.  The file is only rewritten by the
save at line 170, which the pipeline reaches exactly on full success, so on
the two failure shapes the persisted workbook is the unchanged input. -/
def process_sprint_file (wb : Workbook) : ProcessResult × Workbook :=
  match pipeline wb with
  | Except.error _ => (ProcessResult.exceptionFailure, wb)
  | Except.ok (Sum.inl errs) => (ProcessResult.validationFailure errs, wb)
  | Except.ok (Sum.inr d) => (ProcessResult.success d, d.updated)

/-! ### Derived observations used by the claims -/

/-- The total effort recorded by the staff aggregate named `s`, zero when
no such aggregate exists. -/
def staff_effort_of (items : List WorkItem) (s : String) : Rat :=
  (((aggregate_by_staff items).find? (fun a => a.name == s)).map
    (fun a => a.totalEffort)).getD 0

/-- The total effort recorded by the team aggregate named `t`, zero when
no such aggregate exists. -/
def team_effort_of (items : List WorkItem) (t : String) : Rat :=
  (((aggregate_by_team items).find? (fun a => a.name == t)).map
    (fun a => a.totalEffort)).getD 0

/-- The distinct normalized staff names appearing on the rows of team `t`. -/
def team_staff_names (items : List WorkItem) (t : String) : List String :=
  (((teamRows items).filter (fun w => teamKey w == some t)).filterMap staffKey).dedup

/-! ### Helper lemmas -/

theorem insertSorted_perm (le : String → String → Bool) (a : String) (l : List String) :
    List.Perm (insertSorted le a l) (a :: l) := by
  induction l with
  | nil => exact List.Perm.refl _
  | cons b l ih =>
      by_cases h : le a b = true
      · simp [insertSorted, h]
      · simp only [insertSorted, h, if_neg]
        exact List.Perm.trans (List.Perm.cons b ih) (List.Perm.swap a b l)

theorem sortNames_perm (le : String → String → Bool) (l : List String) :
    List.Perm (sortNames le l) l := by
  induction l with
  | nil => exact List.Perm.refl _
  | cons a l ih =>
      exact List.Perm.trans (insertSorted_perm le a (sortNames le l)) (List.Perm.cons a ih)

theorem groupKeys_nodup (key : WorkItem → Option String) (rows : List WorkItem) :
    (groupKeys key rows).Nodup :=
  (sortNames_perm strLeB (rows.filterMap key).dedup).nodup_iff.mpr
    (List.nodup_dedup _)

theorem mem_groupKeys {key : WorkItem → Option String} {rows : List WorkItem} {s : String} :
    s ∈ groupKeys key rows ↔ ∃ w ∈ rows, key w = some s := by
  rw [groupKeys, (sortNames_perm strLeB _).mem_iff, List.mem_dedup, List.mem_filterMap]

theorem find_map_keys (keys : List String) (f : String → Aggregate)
    (hf : ∀ k, (f k).name = k) (hnd : keys.Nodup) :
    ∀ s ∈ keys, (keys.map f).find? (fun a => a.name == s) = some (f s) := by
  induction keys with
  | nil => intro s hs; exact absurd hs (List.not_mem_nil s)
  | cons k ks ih =>
      intro s hs
      by_cases h : k = s
      · subst h
        simp [List.find?_cons_of_pos, hf]
      · have hsks : s ∈ ks := by
          rcases List.mem_cons.mp hs with h1 | h1
          · exact absurd h1.symm h
          · exact h1
        rw [List.map_cons, List.find?_cons_of_neg, ih (List.nodup_cons.mp hnd).2 s hsks]
        simp [hf, h]

theorem find_map_keys_none (keys : List String) (f : String → Aggregate)
    (hf : ∀ k, (f k).name = k) {s : String} (hs : s ∉ keys) :
    (keys.map f).find? (fun a => a.name == s) = none := by
  rw [List.find?_eq_none]
  intro a ha
  rcases List.mem_map.mp ha with ⟨k, hk, rfl⟩
  simp only [hf, beq_iff_eq]
  intro h
  exact hs (h ▸ hk)

theorem sum_map_filter_split (l : List WorkItem) (p : WorkItem → Bool) (v : WorkItem → Rat) :
    ((l.filter p).map v).sum + ((l.filter (fun w => !(p w))).map v).sum = (l.map v).sum := by
  induction l with
  | nil => simp
  | cons a l ih =>
      by_cases h : p a = true
      · simp only [List.filter_cons, h, if_pos, Bool.not_true, if_neg, List.map_cons,
          List.sum_cons, Bool.false_eq_true, not_false_iff]
        rw [add_assoc, ih]
      · simp only [List.filter_cons, h, Bool.not_eq_true] at *
        simp only [List.filter_cons, h, Bool.not_false, if_pos, Bool.false_eq_true,
          if_neg, not_false_iff, List.map_cons, List.sum_cons]
        rw [add_left_comm, ih]

theorem sum_over_keys (S : List String) (κ : WorkItem → Option String)
    (v : WorkItem → Rat) :
    ∀ l : List WorkItem, S.Nodup → (∀ w ∈ l, ∃ s ∈ S, κ w = some s) →
      (S.map (fun s => ((l.filter (fun w => κ w == some s)).map v).sum)).sum
        = (l.map v).sum := by
  induction S with
  | nil =>
      intro l _ hcov
      cases l with
      | nil => simp
      | cons a tl =>
          obtain ⟨s, hs, _⟩ := hcov a (List.mem_cons_self a tl)
          exact absurd hs (List.not_mem_nil s)
  | cons s S ih =>
      intro l hnd hcov
      have hnotin : s ∉ S := (List.nodup_cons.mp hnd).1
      have hsplit := sum_map_filter_split l (fun w => κ w == some s) v
      have hrest : ∀ s2 ∈ S,
          l.filter (fun w => κ w == some s2)
            = (l.filter (fun w => !(κ w == some s))).filter (fun w => κ w == some s2) := by
        intro s2 hs2
        rw [List.filter_filter]
        apply List.filter_congr
        intro w _
        by_cases hq : κ w = some s2
        · have hss : s2 ≠ s := fun h => hnotin (h ▸ hs2)
          simp [hq, hss]
        · simp [hq]
      have hmap : S.map (fun s2 => ((l.filter (fun w => κ w == some s2)).map v).sum)
          = S.map (fun s2 =>
              (((l.filter (fun w => !(κ w == some s))).filter
                  (fun w => κ w == some s2)).map v).sum) := by
        apply List.map_congr_left
        intro s2 hs2
        rw [hrest s2 hs2]
      have hcov2 : ∀ w ∈ l.filter (fun w => !(κ w == some s)), ∃ s2 ∈ S, κ w = some s2 := by
        intro w hw
        have hwl := List.mem_filter.mp hw
        obtain ⟨s2, hs2, hk2⟩ := hcov w hwl.1
        rcases List.mem_cons.mp hs2 with h1 | h1
        · exfalso
          have := hwl.2
          rw [hk2, ← h1] at this
          simp at this
        · exact ⟨s2, h1, hk2⟩
      calc (List.map (fun s2 => ((l.filter (fun w => κ w == some s2)).map v).sum) (s :: S)).sum
          = ((l.filter (fun w => κ w == some s)).map v).sum
              + (S.map (fun s2 => ((l.filter (fun w => κ w == some s2)).map v).sum)).sum := by
            simp
        _ = ((l.filter (fun w => κ w == some s)).map v).sum
              + ((l.filter (fun w => !(κ w == some s))).map v).sum := by
            rw [hmap, ih _ (List.nodup_cons.mp hnd).2 hcov2]
        _ = (l.map v).sum := hsplit

/-- C2 (amended). For validated inputs in which every work item carries an
assignee, an effort value and a team, and each staff member's items all lie
in one team, the sum over a team's staff members of the staff aggregates'
total effort equals the team aggregate's total effort: no work item is
double-counted or dropped between staff and team aggregation. -/
theorem staff_team_effort_conservation :
    ∀ (items : List WorkItem) (t : String),
      (∀ w ∈ items, w.assignee.isSome = true ∧ w.effort.isSome = true
          ∧ w.team.isSome = true) →
      (∀ w ∈ items, ∀ w2 ∈ items, staffKey w = staffKey w2 → teamKey w = teamKey w2) →
      ((team_staff_names items t).map (staff_effort_of items)).sum
        = team_effort_of items t := by
  intro items t h1 h2
  have hteamRows : teamRows items = items :=
    List.filter_eq_self.mpr (fun w hw => (h1 w hw).2.2)
  have hstaffRows : staffRows items = items := by
    apply List.filter_eq_self.mpr
    intro w hw
    simp [usableRow, (h1 w hw).1, (h1 w hw).2.1]
  by_cases ht : t ∈ groupKeys teamKey items
  · -- `t` is one of the team aggregate keys
    have hteff : team_effort_of items t
        = ((items.filter (fun w => teamKey w == some t)).map effortOf).sum := by
      simp only [team_effort_of, aggregate_by_team, hteamRows]
      rw [find_map_keys _ _ (fun k => rfl) (by rw [← hteamRows] at ht ⊢; exact groupKeys_nodup _ _) t ht]
      simp [mkAggregate]
    have hfilter : ∀ s, s ∈ team_staff_names items t →
        items.filter (fun w => staffKey w == some s)
          = (items.filter (fun w => teamKey w == some t)).filter
              (fun w => staffKey w == some s) := by
      intro s hs
      simp only [team_staff_names, hteamRows, List.mem_dedup, List.mem_filterMap] at hs
      obtain ⟨w0, hw0, hk0⟩ := hs
      have hw0items : w0 ∈ items := (List.mem_filter.mp hw0).1
      have hw0team : teamKey w0 = some t := by
        have := (List.mem_filter.mp hw0).2
        simpa using this
      rw [List.filter_filter]
      apply List.filter_congr
      intro w hw
      by_cases hq : staffKey w = some s
      · have hteam : teamKey w = some t := by
          rw [h2 w hw w0 hw0items (hq.trans hk0.symm)]
          exact hw0team
        simp [hq, hteam]
      · simp [hq]
    have hseff : ∀ s, s ∈ team_staff_names items t →
        staff_effort_of items s
          = (((items.filter (fun w => teamKey w == some t)).filter
              (fun w => staffKey w == some s)).map effortOf).sum := by
      intro s hs
      have hsl : s ∈ groupKeys staffKey items := by
        simp only [team_staff_names, hteamRows, List.mem_dedup, List.mem_filterMap] at hs
        obtain ⟨w0, hw0, hk0⟩ := hs
        exact mem_groupKeys.mpr ⟨w0, (List.mem_filter.mp hw0).1, hk0⟩
      simp only [staff_effort_of, aggregate_by_staff, hstaffRows]
      rw [find_map_keys _ _ (fun k => rfl)
        (by rw [← hstaffRows] at hsl ⊢; exact groupKeys_nodup _ _) s hsl]
      simp only [mkAggregate]
      rw [hfilter s hs]
      rfl
    rw [List.map_congr_left hseff]
    rw [hteff]
    apply sum_over_keys
    · exact List.nodup_dedup _
    · intro w hw
      have hwi : w ∈ items := (List.mem_filter.mp hw).1
      obtain ⟨a, ha⟩ := Option.isSome_iff_exists.mp (h1 w hwi).1
      refine ⟨normName a, ?_, ?_⟩
      · simp only [team_staff_names, hteamRows, List.mem_dedup, List.mem_filterMap]
        exact ⟨w, hw, by simp [staffKey, ha]⟩
      · simp [staffKey, ha]
  · -- `t` names no team aggregate: both sides are zero
    have hnone : (items.filter (fun w => teamKey w == some t)) = [] := by
      rw [List.filter_eq_nil_iff]
      intro w hw
      simp only [beq_iff_eq]
      intro hk
      exact ht (mem_groupKeys.mpr ⟨w, hw, hk⟩)
    have hLHS : team_staff_names items t = [] := by
      simp [team_staff_names, hteamRows, hnone]
    have hRHS : team_effort_of items t = 0 := by
      simp only [team_effort_of, aggregate_by_team, hteamRows]
      rw [find_map_keys_none _ _ (fun k => rfl) ht]
      rfl
    rw [hLHS, hRHS]
    rfl

/-! ### Concrete inputs used by counterexamples and witnesses -/

/-- Shorthand for building a concrete work item. -/
def mkItem (i : Nat) (a t st : Option String) (e : Option Rat)
    (add adhoc : Bool) : WorkItem :=
  { id := some (i : Rat), assignee := a, team := t, itemType := some "Task",
    status := st, effort := e, isAddition := add, isAdhoc := adhoc }

/-- Two work items of team A, one of them with no assignee: validated with
a warning, kept in the team rollup, excluded from every staff rollup. -/
def cx2items : List WorkItem :=
  [mkItem 1 (some "Alice") (some "A") (some "Done") (some 2) false false,
   mkItem 2 none (some "A") none (some 3) false false]

unseal Rat.add Rat.mul Rat.inv Rat.sub in
/-- C2 (counterexample). On a validated input (status warning, not error)
holding a work item with a team but no assignee, the sum over team A's
staff members of the staff aggregates' total effort is 2 while the team
aggregate's total effort is 5: the claimed conservation law fails on the
code because rows lacking an assignee stay in team rollups but belong to no
staff rollup. -/
theorem staff_team_effort_counterexample :
    (validate_data cx2items).status = VStatus.warning ∧
    team_staff_names cx2items "a" = ["alice"] ∧
    staff_effort_of cx2items "alice" = 2 ∧
    team_effort_of cx2items "a" = 5 ∧
    ((team_staff_names cx2items "a").map (staff_effort_of cx2items)).sum
      ≠ team_effort_of cx2items "a" := by
  decide

/-- Concrete single-item input satisfying the amended hypotheses. -/
def witItems : List WorkItem :=
  [mkItem 1 (some "Alice") (some "A") (some "Done") (some 2) false false]

unseal Rat.add Rat.mul Rat.inv Rat.sub in
/-- Witness for the amended conservation law at a concrete input. -/
theorem staff_team_effort_conservation_witness :
    ((team_staff_names witItems "a").map (staff_effort_of witItems)).sum
      = team_effort_of witItems "a" :=
  staff_team_effort_conservation witItems "a" (by decide) (by decide)

/-! ### Updater lemmas -/

theorem upsertKey_key_present {α : Type} (rows : List (String × α)) (k : String) (v : α) :
    (upsertKey rows k v).any (fun r => r.1 == k) = true := by
  unfold upsertKey
  by_cases h : rows.any (fun r => r.1 == k) = true
  · rw [if_pos h, List.any_map]
    rcases List.any_eq_true.mp h with ⟨r, hr, hrk⟩
    apply List.any_eq_true.mpr
    refine ⟨r, hr, ?_⟩
    simp only [Function.comp_apply, if_pos hrk]
    simp
  · rw [if_neg h, List.any_append]
    simp

theorem map_overwrite_map_overwrite {α : Type} (rows : List (String × α)) (k : String) (v : α) :
    (rows.map (fun r => if r.1 == k then (k, v) else r)).map
        (fun r => if r.1 == k then (k, v) else r)
      = rows.map (fun r => if r.1 == k then (k, v) else r) := by
  rw [List.map_map]
  apply List.map_congr_left
  intro r _
  by_cases hrk : r.1 = k
  · simp [Function.comp_apply, hrk]
  · simp [Function.comp_apply, hrk]

theorem map_overwrite_of_absent {α : Type} (rows : List (String × α)) (k : String) (v : α)
    (h : ∀ r ∈ rows, ¬ r.1 = k) :
    rows.map (fun r => if r.1 == k then (k, v) else r) = rows := by
  conv_rhs => rw [← List.map_id rows]
  apply List.map_congr_left
  intro r hr
  simp [h r hr]

theorem upsertKey_idem {α : Type} (rows : List (String × α)) (k : String) (v : α) :
    upsertKey (upsertKey rows k v) k v = upsertKey rows k v := by
  have hp := upsertKey_key_present rows k v
  cases h : rows.any (fun r => r.1 == k) with
  | true =>
      have h1 : upsertKey rows k v = rows.map (fun r => if r.1 == k then (k, v) else r) := by
        unfold upsertKey
        rw [if_pos h]
      rw [h1] at hp ⊢
      unfold upsertKey
      rw [if_pos hp]
      exact map_overwrite_map_overwrite rows k v
  | false =>
      have h1 : upsertKey rows k v = rows ++ [(k, v)] := by
        unfold upsertKey
        rw [if_neg (by rw [h]; exact Bool.false_ne_true)]
      rw [h1] at hp ⊢
      unfold upsertKey
      rw [if_pos hp, List.map_append]
      have habsent : ∀ r ∈ rows, ¬ r.1 = k := by
        intro r hr
        have h3 := List.any_eq_false.mp h r hr
        simpa using h3
      rw [map_overwrite_of_absent rows k v habsent]
      simp

theorem countKey_upsertKey {α : Type} (rows : List (String × α)) (k : String) (v : α)
    (h : countKey rows k = 0) : countKey (upsertKey rows k v) k = 1 := by
  have hfilter : rows.filter (fun r => r.1 == k) = [] :=
    List.length_eq_zero.mp h
  have hany : rows.any (fun r => r.1 == k) = false := by
    rw [List.any_eq_false]
    intro r hr hrk
    have hmem : r ∈ rows.filter (fun r => r.1 == k) :=
      List.mem_filter.mpr ⟨hr, hrk⟩
    rw [hfilter] at hmem
    exact absurd hmem (List.not_mem_nil r)
  unfold upsertKey
  rw [if_neg (by rw [hany]; exact Bool.false_ne_true)]
  unfold countKey
  rw [List.filter_append, hfilter]
  simp

theorem run_updater_ok_iff {wb : Workbook} {s : String} {sm tm : List Metrics}
    {cm : CmmiMeasures} {wb1 : Workbook} :
    run_updater wb s sm tm cm = Except.ok wb1 ↔
      ∃ ki hs ht cr, wb.kpiIndicators = some ki ∧ wb.histStaff = some hs ∧
        wb.histTeam = some ht ∧ wb.cmmiRows = some cr ∧
        wb1 = { wb with
          analysisSheets := upsertKey wb.analysisSheets (s ++ " Analysis") (sm, tm),
          kpiIndicators := some (s ++ " Analysis"),
          histStaff := some (upsertKey hs s (historyColumn sm)),
          histTeam := some (upsertKey ht s (historyColumn tm)),
          cmmiRows := some (upsertKey cr s (cmmiRow cm)) } := by
  unfold run_updater update_analysis_sheet update_kpi_indicators_sheet
    append_to_historical_staff append_to_historical_team update_cmmi_template
  cases hki : wb.kpiIndicators with
  | none => simp [hki]
  | some ki =>
    cases hhs : wb.histStaff with
    | none => simp [hki, hhs]
    | some hs =>
      cases hht : wb.histTeam with
      | none => simp [hki, hhs, hht]
      | some ht =>
        cases hcr : wb.cmmiRows with
        | none => simp [hki, hhs, hht, hcr]
        | some cr =>
          simp only [hki, hhs, hht, hcr]
          constructor
          · intro h
            injection h with h
            exact ⟨ki, hs, ht, cr, rfl, rfl, rfl, rfl, h.symm⟩
          · rintro ⟨ki2, hs2, ht2, cr2, e1, e2, e3, e4, rfl⟩
            injection e2 with e2
            injection e3 with e3
            injection e4 with e4
            subst e2; subst e3; subst e4
            rfl

/-- C3. Re-running the workbook updater with the same sprint name and
metrics is idempotent: the second run overwrites in place and returns the
workbook of the first run unchanged; and each historical sheet that did not
yet hold the sprint key gains exactly one column or row keyed by the sprint
name after the first run. -/
theorem run_updater_idempotent_overwrite :
    ∀ (wb : Workbook) (sprint_name : String) (sm tm : List Metrics)
      (cm : CmmiMeasures) (wb1 : Workbook),
      run_updater wb sprint_name sm tm cm = Except.ok wb1 →
      run_updater wb1 sprint_name sm tm cm = Except.ok wb1 ∧
      (∀ cols, wb.histStaff = some cols → countKey cols sprint_name = 0 →
        ∃ cols1, wb1.histStaff = some cols1 ∧ countKey cols1 sprint_name = 1) ∧
      (∀ cols, wb.histTeam = some cols → countKey cols sprint_name = 0 →
        ∃ cols1, wb1.histTeam = some cols1 ∧ countKey cols1 sprint_name = 1) ∧
      (∀ rows, wb.cmmiRows = some rows → countKey rows sprint_name = 0 →
        ∃ rows1, wb1.cmmiRows = some rows1 ∧ countKey rows1 sprint_name = 1) := by
  intro wb s sm tm cm wb1 h
  obtain ⟨ki, hs, ht, cr, hki, hhs, hht, hcr, rfl⟩ := run_updater_ok_iff.mp h
  refine ⟨?_, ?_, ?_, ?_⟩
  · apply run_updater_ok_iff.mpr
    refine ⟨s ++ " Analysis", upsertKey hs s (historyColumn sm),
      upsertKey ht s (historyColumn tm), upsertKey cr s (cmmiRow cm),
      rfl, rfl, rfl, rfl, ?_⟩
    simp [upsertKey_idem]
  · intro cols hcols hcount
    rw [hhs] at hcols
    injection hcols with e
    subst e
    exact ⟨_, rfl, countKey_upsertKey _ _ _ hcount⟩
  · intro cols hcols hcount
    rw [hht] at hcols
    injection hcols with e
    subst e
    exact ⟨_, rfl, countKey_upsertKey _ _ _ hcount⟩
  · intro rows hrows hcount
    rw [hcr] at hrows
    injection hrows with e
    subst e
    exact ⟨_, rfl, countKey_upsertKey _ _ _ hcount⟩

/-- A workbook whose five target sheets exist but are empty. -/
def wbU : Workbook :=
  { dataSheet := [], capacitySheet := [], analysisSheets := [],
    kpiIndicators := some "", histStaff := some [], histTeam := some [],
    cmmiRows := some [], otherSheets := [] }

/-- A concrete CMMI record for the updater witness. -/
def cm0 : CmmiMeasures :=
  { sprint_name := "Sprint 5", completion_rate := 0, completion_flag := true,
    estimation_accuracy := 0, estimation_flag := true, bug_effort_pct := 0,
    bug_flag := true, utilization_rate := 0, utilization_rate_flag := true,
    productivity := 0, productivity_flag := true }

/-- The workbook after one updater run on `wbU` for sprint "Sprint 5". -/
def wbU1 : Workbook :=
  { dataSheet := [], capacitySheet := [],
    analysisSheets := [("Sprint 5 Analysis", ([], []))],
    kpiIndicators := some "Sprint 5 Analysis",
    histStaff := some [("Sprint 5", [])], histTeam := some [("Sprint 5", [])],
    cmmiRows := some [("Sprint 5", cmmiRow cm0)], otherSheets := [] }

/-- Witness for the updater idempotence theorem at a concrete workbook:
processing sprint "Sprint 5" twice leaves the workbook of the first run
unchanged, and the historical staff sheet holds exactly one column labeled
"Sprint 5". -/
theorem run_updater_idempotent_overwrite_witness :
    run_updater wbU1 "Sprint 5" [] [] cm0 = Except.ok wbU1 ∧
    (∃ cols1, wbU1.histStaff = some cols1 ∧ countKey cols1 "Sprint 5" = 1) := by
  have h := run_updater_idempotent_overwrite wbU "Sprint 5" [] [] cm0 wbU1 (by rfl)
  exact ⟨h.1, h.2.1 [] rfl rfl⟩

/-! ### Calculator claims -/

/-- C4. The staff metrics calculator maps every aggregate through the
ratio formulas with the safe-division policy: a count-ratio whose
denominator `totalCount` is 0 evaluates to exactly 0 with its flag set, and
a capacity-ratio whose denominator is the zero capacity (including the
unknown-capacity sentinel) evaluates to exactly 0 with its flag set; the
calculator is a total function, so no input raises or produces NaN. -/
theorem calculator_zero_denominator_policy :
    (∀ (staff_agg : List Aggregate) (capacity_data : List (String × Rat))
        (azure_data : List WorkItem),
        calculate_staff_metrics staff_agg capacity_data azure_data
          = staff_agg.map (metrics_of capacity_data)) ∧
    (∀ (capacity_data : List (String × Rat)) (a : Aggregate), a.totalCount = 0 →
        (metrics_of capacity_data a).done_pct = 0 ∧
        (metrics_of capacity_data a).done_pct_flag = true ∧
        (metrics_of capacity_data a).mid_pct = 0 ∧
        (metrics_of capacity_data a).mid_pct_flag = true ∧
        (metrics_of capacity_data a).adhoc_pct = 0 ∧
        (metrics_of capacity_data a).adhoc_pct_flag = true) ∧
    (∀ (capacity_data : List (String × Rat)) (a : Aggregate),
        (capacityOf capacity_data a.name).getD 0 = 0 →
        (metrics_of capacity_data a).utilization = 0 ∧
        (metrics_of capacity_data a).utilization_flag = true ∧
        (metrics_of capacity_data a).performance_rate = 0 ∧
        (metrics_of capacity_data a).performance_rate_flag = true) := by
  refine ⟨fun _ _ _ => rfl, ?_, ?_⟩
  · intro cap a h
    simp [metrics_of, safe_div, h]
  · intro cap a h
    simp only [metrics_of, safe_div, h]
    norm_num [utilization_ceiling]

/-- An aggregate with zero counts, for the calculator witness. -/
def agg0 : Aggregate :=
  { name := "x", totalCount := 0, doneCount := 0, additionCount := 0,
    adhocCount := 0, totalEffort := 0, doneEffort := 0 }

/-- Witness for the zero-denominator policy at a concrete aggregate with
no tasks and no capacity record. -/
theorem calculator_zero_denominator_policy_witness :
    (metrics_of [] agg0).done_pct = 0 ∧ (metrics_of [] agg0).done_pct_flag = true ∧
    (metrics_of [] agg0).utilization = 0 ∧ (metrics_of [] agg0).utilization_flag = true := by
  obtain ⟨h1, h2, h3⟩ := calculator_zero_denominator_policy
  have ha := h2 [] agg0 rfl
  have hb := h3 [] agg0 rfl
  exact ⟨ha.1, ha.2.1, hb.1, hb.2.1⟩

/-! ### Validator-and-capacity claims -/

/-- One work item assigned to Bob, who has no capacity record. -/
def c6items : List WorkItem :=
  [mkItem 1 (some "Bob") (some "T") (some "Done") (some 1) false false]

/-- A capacity sheet that only knows Alice. -/
def c6cap : List (String × Rat) :=
  [("Alice", 5)]

/-- C6 (counterexample). The validator is called on the processed rows
only (`streamlit_app.py` line 136; capacity data is read afterwards at line
141), so an assignee absent from the capacity data produces no validator
warning at all: on this input Bob has no capacity record yet the
ValidationResult is status ok with an empty warning list. -/
theorem validator_capacity_counterexample :
    c6items.map staffKey = [some "bob"] ∧
    capacityOf c6cap "bob" = none ∧
    (validate_data c6items).status = VStatus.ok ∧
    (validate_data c6items).warnings = [] := by
  decide

/-- C6 (amended). The validator receives only the processed rows; an
assignee with no capacity record is instead handled by the calculator,
which uses the zero sentinel capacity for the group, reporting its
capacity-based KPIs as 0 with their flags set rather than silently
computing them. -/
theorem capacity_sentinel_flagged :
    ∀ (capacity_data : List (String × Rat)) (a : Aggregate),
      capacityOf capacity_data a.name = none →
      (metrics_of capacity_data a).utilization = 0 ∧
      (metrics_of capacity_data a).utilization_flag = true ∧
      (metrics_of capacity_data a).performance_rate = 0 ∧
      (metrics_of capacity_data a).performance_rate_flag = true := by
  intro cap a h
  simp only [metrics_of, safe_div, h]
  norm_num [utilization_ceiling]

/-- Witness for the capacity sentinel at Bob's aggregate, absent from the
capacity sheet that only knows Alice. -/
theorem capacity_sentinel_flagged_witness :
    (metrics_of c6cap (mkAggregate "bob" [])).utilization = 0 ∧
    (metrics_of c6cap (mkAggregate "bob" [])).utilization_flag = true ∧
    (metrics_of c6cap (mkAggregate "bob" [])).performance_rate = 0 ∧
    (metrics_of c6cap (mkAggregate "bob" [])).performance_rate_flag = true :=
  capacity_sentinel_flagged c6cap (mkAggregate "bob" []) (by decide)

/-- C8. The validator is deterministic and pure: it is a function of the
row list alone, so identical inputs always yield identical
ValidationResults. -/
theorem validator_deterministic :
    (∀ rows1 rows2 : List WorkItem, rows1 = rows2 →
      validate_data rows1 = validate_data rows2) ∧
    (∀ rows : List WorkItem, validate_data rows = validate_data rows) :=
  ⟨fun _ _ h => h ▸ rfl, fun _ => rfl⟩

/-- Witness for validator determinism on a concrete row list. -/
theorem validator_deterministic_witness :
    validate_data c6items = validate_data c6items :=
  validator_deterministic.1 c6items c6items rfl

/-! ### Extractor claim -/

/-- C7. The work-item table is parsed with the row at 0-based index 20,
that is 1-based row 21, as the header row: a missing header row or any
expected column header absent from row 21 fails with `SchemaError`, and
otherwise every data row below row 21 is mapped to a WorkItem through the
row-21 header. -/
theorem extractor_header_row_21 :
    azureHeaderIndex + 1 = 21 ∧
    (∀ sheet : List (List Cell), sheet[azureHeaderIndex]? = none →
        process_azure_data sheet = Except.error PErr.schemaError) ∧
    (∀ (sheet : List (List Cell)) (header : List Cell),
        sheet[azureHeaderIndex]? = some header →
        expectedColumns.all (fun n => header.contains (Cell.str n)) = false →
        process_azure_data sheet = Except.error PErr.schemaError) ∧
    (∀ (sheet : List (List Cell)) (header : List Cell),
        sheet[azureHeaderIndex]? = some header →
        expectedColumns.all (fun n => header.contains (Cell.str n)) = true →
        process_azure_data sheet = Except.ok
          (((sheet.drop (azureHeaderIndex + 1)).filter (fun r => !(blankRow r))).map
            (parse_work_item header))) := by
  refine ⟨rfl, ?_, ?_, ?_⟩
  · intro sheet h
    simp [process_azure_data, h]
  · intro sheet header h hall
    simp only [process_azure_data, h, hall]
    simp
  · intro sheet header h hall
    simp only [process_azure_data, h, hall]
    simp

/-- A header row holding every expected column. -/
def fullHeader : List Cell := expectedColumns.map Cell.str

/-- A sheet whose row 21 is a complete header row with no data rows. -/
def c7sheet : List (List Cell) := List.replicate 20 [] ++ [fullHeader]

/-- A sheet whose row 21 misses most expected columns. -/
def c7bad : List (List Cell) := List.replicate 20 [] ++ [[Cell.str "ID"]]

/-- Witness for the header-row behaviour at two concrete sheets. -/
theorem extractor_header_row_21_witness :
    process_azure_data c7bad = Except.error PErr.schemaError ∧
    process_azure_data c7sheet = Except.ok [] := by
  have h := extractor_header_row_21
  refine ⟨h.2.2.1 c7bad [Cell.str "ID"] (by decide) (by decide), ?_⟩
  have h2 := h.2.2.2 c7sheet fullHeader (by decide) (by decide)
  rw [h2]
  rfl

/-! ### Scenario claim -/

/-- Ten work items for Alice: two done, one mid-sprint addition, no ad-hoc
item, each with effort 2/5 so the total effort is 4. -/
def c9items : List WorkItem :=
  [mkItem 1 (some "Alice") (some "T") (some "Done") (some (2/5)) false false,
   mkItem 2 (some "Alice") (some "T") (some "Done") (some (2/5)) true false,
   mkItem 3 (some "Alice") (some "T") (some "Active") (some (2/5)) false false,
   mkItem 4 (some "Alice") (some "T") (some "Active") (some (2/5)) false false,
   mkItem 5 (some "Alice") (some "T") (some "Active") (some (2/5)) false false,
   mkItem 6 (some "Alice") (some "T") (some "Active") (some (2/5)) false false,
   mkItem 7 (some "Alice") (some "T") (some "Active") (some (2/5)) false false,
   mkItem 8 (some "Alice") (some "T") (some "Active") (some (2/5)) false false,
   mkItem 9 (some "Alice") (some "T") (some "Active") (some (2/5)) false false,
   mkItem 10 (some "Alice") (some "T") (some "Active") (some (2/5)) false false]

/-- Alice has capacity 5 for the sprint. -/
def c9capacity : List (String × Rat) := [("Alice", 5)]

unseal Rat.add Rat.mul Rat.inv Rat.sub in
/-- C9. On an input of 10 work items with 2 done, 1 mid-sprint addition and
0 ad-hoc, assigned to a staff member with capacity 5 and total effort 4,
the computed staff metrics report Done Tasks % = 1/5 = 0.2 and
Utilization = 4/5 = 0.8. -/
theorem scenario_ten_items_metrics :
    ((aggregate_by_staff c9items).map
      (fun a => (a.name, a.totalCount, a.doneCount, a.additionCount, a.adhocCount,
        a.totalEffort))) = [("alice", 10, 2, 1, 0, (4 : Rat))] ∧
    ((calculate_staff_metrics (aggregate_by_staff c9items) c9capacity c9items).map
      (fun m => (m.name, m.done_pct, m.utilization)))
      = [("alice", (1 : Rat)/5, (4 : Rat)/5)] := by
  decide

/-! ### Pipeline claims -/

theorem pipeline_ok_inr {wb : Workbook} {d : SuccessData}
    (hp : pipeline wb = Except.ok (Sum.inr d)) :
    ∃ meta, extract_sprint_metadata wb.dataSheet = Except.ok meta ∧
      run_updater wb meta.sprint_name d.staff_metrics d.team_metrics d.cmmi_measures
        = Except.ok d.updated := by
  unfold pipeline at hp
  cases hm : extract_sprint_metadata wb.dataSheet with
  | error e => rw [hm] at hp; exact absurd hp (by simp)
  | ok meta =>
    rw [hm] at hp
    cases ha : process_azure_data wb.dataSheet with
    | error e => rw [ha] at hp; exact absurd hp (by simp)
    | ok azure =>
      rw [ha] at hp
      simp only [] at hp
      by_cases hv : (validate_data azure).status = VStatus.error
      · rw [if_pos hv] at hp
        exact absurd hp (by simp)
      · rw [if_neg hv] at hp
        cases hr : run_updater wb meta.sprint_name
            (calculate_staff_metrics (aggregate_by_staff azure)
              (get_capacity_data wb.capacitySheet) azure)
            (calculate_team_metrics (aggregate_by_team azure)
              (get_capacity_data wb.capacitySheet) azure)
            (calculate_cmmi_measures meta azure) with
        | error e => rw [hr] at hp; exact absurd hp (by simp)
        | ok u =>
            rw [hr] at hp
            injection hp with h1
            injection h1 with h2
            subst h2
            exact ⟨meta, rfl, hr⟩

/-- C1. Processing is all-or-nothing: for every input workbook the call
either returns no workbook bytes with the persisted workbook unchanged
(every failure, including a validation error, stops before any sheet is
written), or it fully succeeds, meaning the metadata extraction and all
five sheet updates went through and the returned bytes are exactly the
saved updated workbook. -/
theorem process_sprint_file_all_or_nothing :
    ∀ wb : Workbook,
      (result_bytes (process_sprint_file wb).1 = none ∧
        (process_sprint_file wb).2 = wb) ∨
      (∃ (d : SuccessData) (meta : SprintMetadata),
        extract_sprint_metadata wb.dataSheet = Except.ok meta ∧
        run_updater wb meta.sprint_name d.staff_metrics d.team_metrics d.cmmi_measures
          = Except.ok d.updated ∧
        process_sprint_file wb = (ProcessResult.success d, d.updated) ∧
        result_bytes (process_sprint_file wb).1 = some d.updated) := by
  intro wb
  cases hp : pipeline wb with
  | error e =>
      left
      simp [process_sprint_file, hp, result_bytes]
  | ok v =>
    cases v with
    | inl errs =>
        left
        simp [process_sprint_file, hp, result_bytes]
    | inr d =>
        right
        obtain ⟨meta, hm, hr⟩ := pipeline_ok_inr hp
        refine ⟨d, meta, hm, hr, ?_, ?_⟩
        · simp [process_sprint_file, hp]
        · simp [process_sprint_file, hp, result_bytes]

/-- C10. Every exception raised by a pipeline stage is caught by
`process_sprint_file`, which then returns the five-component tuple of five
`None` values: no workbook bytes, no validation record, no staff metrics,
no team metrics and no CMMI measures reach the caller, and the persisted
workbook is unchanged. -/
theorem exception_returns_five_nones :
    ∀ (wb : Workbook) (e : PErr), pipeline wb = Except.error e →
      process_sprint_file wb = (ProcessResult.exceptionFailure, wb) ∧
      result_bytes (process_sprint_file wb).1 = none ∧
      result_validation (process_sprint_file wb).1 = none ∧
      result_staff (process_sprint_file wb).1 = none ∧
      result_team (process_sprint_file wb).1 = none ∧
      result_cmmi (process_sprint_file wb).1 = none ∧
      returnArity (process_sprint_file wb).1 = 5 := by
  intro wb e h
  simp [process_sprint_file, h, result_bytes, result_validation, result_staff,
    result_team, result_cmmi, returnArity]

/-- A workbook with nothing in it: metadata extraction raises. -/
def wbEmpty : Workbook :=
  { dataSheet := [], capacitySheet := [], analysisSheets := [],
    kpiIndicators := none, histStaff := none, histTeam := none,
    cmmiRows := none, otherSheets := [] }

/-- Witness: on the empty workbook the pipeline raises `MetadataError` and
the caller receives the five-None tuple. -/
theorem exception_returns_five_nones_witness :
    process_sprint_file wbEmpty = (ProcessResult.exceptionFailure, wbEmpty) ∧
    result_bytes (process_sprint_file wbEmpty).1 = none :=
  ⟨(exception_returns_five_nones wbEmpty PErr.metadataError (by rfl)).1,
   (exception_returns_five_nones wbEmpty PErr.metadataError (by rfl)).2.1⟩

/-- A Data sheet with parseable metadata, a complete header in row 21 and
zero data rows, so validation reports the empty-table error. -/
def c5sheet : List (List Cell) :=
  [[], [], [Cell.blank, Cell.str "Sprint 5"], [], [Cell.blank, Cell.num 1], [],
   [Cell.blank, Cell.num 10], [], [Cell.blank, Cell.num 20], [],
   [], [], [], [], [], [], [], [], [], [],
   fullHeader]

/-- The workbook around `c5sheet` with all target sheets present. -/
def c5wb : Workbook :=
  { dataSheet := c5sheet, capacitySheet := [], analysisSheets := [],
    kpiIndicators := some "", histStaff := some [], histTeam := some [],
    cmmiRows := some [], otherSheets := [] }

/-- C5 (code bug). On a workbook whose validation status is error, line 138
of `streamlit_app.py` returns the four-component tuple
`(None, validation.errors, None, None)`, while the success and exception
branches return five components and `main` line 241 unpacks five values:
the validation-error branch yields a differently shaped tuple that the
caller cannot consume. -/
theorem validation_error_branch_arity_bug :
    process_sprint_file c5wb = (ProcessResult.validationFailure [emptyTableIssue], c5wb) ∧
    returnArity (process_sprint_file c5wb).1 = 4 ∧
    mainUnpackOk (process_sprint_file c5wb).1 = false ∧
    returnArity ProcessResult.exceptionFailure = 5 := by
  decide

end SprintAnalyzer
